import Mathlib

/-!
Shallow embedding of the layer-composition and per-layer-filtering core of a
structured-diagnostics subscriber framework:

- `src/tracing-subscriber/src/layer/layered.rs` (`Layered`: `pick_interest`,
  `pick_level_hint`, `downcast_raw`);
- `src/tracing-subscriber/src/filter/layer_filters.rs` (`FilterId`,
  `FilterMap`, `FilterState`, `Filtered`).

Machine integers (`u64` bit masks) are modelled as `Nat` with explicit
masking against `2 ^ 64 - 1` where the Rust code relies on 64-bit complement.
Stateful thread-local code is modelled by explicit state passing; closures
passed as `FnOnce` continuations are modelled by a Boolean recording whether
the code invokes them.
-/

namespace Spec2Proof

/-- `tracing_core::subscriber::Interest`: a tri-state opinion about a
callsite. -/
inductive Interest where
  | never
  | sometimes
  | always
deriving DecidableEq, Repr

/-- `Interest::is_never`. -/
def Interest.is_never : Interest → Bool
  | .never => true
  | _ => false

/-- `Interest::is_sometimes`. -/
def Interest.is_sometimes : Interest → Bool
  | .sometimes => true
  | _ => false

/-- `Interest::is_always`. -/
def Interest.is_always : Interest → Bool
  | .always => true
  | _ => false

/-- `tracing_core::LevelFilter`, ordered `OFF < ERROR < WARN < INFO < DEBUG <
TRACE` (larger = more verbose). -/
inductive LevelFilter where
  | off
  | error
  | warn
  | info
  | debug
  | trace
deriving DecidableEq, Repr

/-- Rank of a `LevelFilter` in its derived `Ord`. -/
def LevelFilter.rank : LevelFilter → Nat
  | .off => 0
  | .error => 1
  | .warn => 2
  | .info => 3
  | .debug => 4
  | .trace => 5

/-- Rust `std::cmp::max` on `LevelFilter` (`max_by` returns the second
argument when the two compare equal). -/
def LevelFilter.max (a b : LevelFilter) : LevelFilter :=
  if b.rank < a.rank then a else b

/-- Rust `std::cmp::max` on `Option<LevelFilter>` with the derived `Ord` on
`Option`, under which `None` is less than every `Some`. -/
def optMax : Option LevelFilter → Option LevelFilter → Option LevelFilter
  | none, b => b
  | some a, none => some a
  | some a, some b => some (LevelFilter.max a b)

/-- `FilterId` (`layer_filters.rs`): a `u8` naming one per-layer filter;
255 is the unregistered sentinel. -/
structure FilterId where
  val : Nat
deriving DecidableEq, Repr

/-- `u64::MAX` as a natural number. -/
def u64Max : Nat := 2 ^ 64 - 1

/-- `FilterMap` (`layer_filters.rs`): a 64-bit bitset; bit `i` set means the
filter with id `i` has disabled the current span/event. -/
structure FilterMap where
  bits : Nat
deriving DecidableEq, Repr

/-- `FilterMap::default()`: all bits clear. -/
def FilterMap.default : FilterMap := ⟨0⟩

/-- `FilterMap::set`. Rust computes `bits & !(1 << idx)` on `u64`; the 64-bit
complement `!(1 << idx)` equals `u64Max ^^^ (1 <<< idx)` for `idx < 64`. -/
def FilterMap.set (m : FilterMap) (f : FilterId) (enabled : Bool) : FilterMap :=
  if 64 ≤ f.val then m
  else if enabled then ⟨m.bits &&& (u64Max ^^^ (1 <<< f.val))⟩
  else ⟨m.bits ||| (1 <<< f.val)⟩

/-- `FilterMap::is_enabled`. -/
def FilterMap.is_enabled (m : FilterMap) (f : FilterId) : Bool :=
  if 64 ≤ f.val then false
  else m.bits &&& (1 <<< f.val) == 0

/-- `FilterMap::any_enabled`. -/
def FilterMap.any_enabled (m : FilterMap) : Bool :=
  m.bits != u64Max

/-- `FilterMap::all_disabled`. -/
def FilterMap.all_disabled (m : FilterMap) : Bool :=
  m.bits == u64Max

/-- `FilterState` (`layer_filters.rs`), the thread-local scratch area. The
two `cfg(debug_assertions)` pass counters are compiled out of release builds
and do not affect any return value; they are omitted. -/
structure FilterState where
  enabled : FilterMap
  interest : Option Interest
deriving DecidableEq, Repr

/-- `FilterState::new()`. -/
def FilterState.new : FilterState := ⟨FilterMap.default, none⟩

/-- `FilterState::set` (release semantics: the debug assertions are
compiled out). -/
def FilterState.set (st : FilterState) (f : FilterId) (enabled : Bool) :
    FilterState :=
  { st with enabled := st.enabled.set f enabled }

/-- `FilterState::add_interest` (the `dbg!` wrappers are identity on the
value). -/
def FilterState.add_interest (st : FilterState) (interest : Interest) :
    FilterState :=
  match st.interest with
  | some curr =>
      if (curr.is_always && !interest.is_always)
          || (curr.is_never && !interest.is_never) then
        { st with interest := some Interest.sometimes }
      else
        st
  | none => { st with interest := some interest }

/-- `FilterState::did_enable`. The `FnOnce` continuation `f` is modelled by
the returned Boolean: `true` exactly when the code invokes `f`. -/
def FilterState.did_enable (st : FilterState) (f : FilterId) :
    FilterState × Bool :=
  let map := st.enabled
  if map.is_enabled f then (st, true)
  else ({ st with enabled := map.set f true }, false)

/-- `FilterState::event_enabled`. `FILTERING.try_with` fails when the
thread-local is inaccessible (e.g. during thread destruction); the `Option`
argument models that: `none` is the inaccessible case, where `.unwrap_or(true)`
applies. -/
def FilterState.event_enabled : Option FilterState → Bool
  | some st => st.enabled.any_enabled
  | none => true

/-- `FilterState::filter_map` (release semantics: the commented-out block and
the debug assertion do nothing). -/
def FilterState.filter_map (st : FilterState) : FilterMap :=
  st.enabled

/-- Modelled from the spec: `Context` (its source, `layer/context.rs`, is not
part of the excerpt). It carries a way to look up the FilterMap stored for a
span at `new_span` time, and the optional current `FilterId`. Span ids are
modelled as `Nat`. -/
structure Context where
  spanMap : Nat → FilterMap
  filter : Option FilterId

/-- Modelled from the spec: `Context::with_filter` records the current
filter id. -/
def Context.with_filter (cx : Context) (f : FilterId) : Context :=
  { cx with filter := some f }

/-- Modelled from the spec: `Context::is_enabled_for` consults the span's
stored FilterMap — bit `f` clear means the span is enabled for that
filter. -/
def Context.is_enabled_for (cx : Context) (span : Nat) (f : FilterId) : Bool :=
  (cx.spanMap span).is_enabled f

/-- Modelled from the spec: `Context::if_enabled_for` returns
`Some(cx.with_filter f)` when the span is enabled for filter `f`, else
`None`. -/
def Context.if_enabled_for (cx : Context) (span : Nat) (f : FilterId) :
    Option Context :=
  if cx.is_enabled_for span f then some (cx.with_filter f) else none

/-- `Filtered::register_callsite`: given the interest the wrapped filter
returned from `callsite_enabled`, add it to the thread-local state and return
`Interest::always()` ("don't short circuit!"). -/
def Filtered.register_callsite (st : FilterState) (filterInterest : Interest) :
    FilterState × Interest :=
  (st.add_interest filterInterest, Interest.always)

/-- `Filtered::enabled`: write the wrapped filter's Boolean verdict into the
thread-local FilterMap at bit `my`, and return `true` ("don't short circuit,
keep filtering"). -/
def Filtered.enabled (st : FilterState) (my : FilterId) (verdict : Bool) :
    FilterState × Bool :=
  (st.set my verdict, true)

/-- `Filtered::new_span` forwards to the inner layer through
`FilterState::did_enable` on the wrapper's own id; the Boolean records whether
the inner layer was invoked. -/
def Filtered.new_span (st : FilterState) (my : FilterId) : FilterState × Bool :=
  st.did_enable my

/-- `Filtered::on_event`: same gate as `Filtered::new_span`. -/
def Filtered.on_event (st : FilterState) (my : FilterId) : FilterState × Bool :=
  st.did_enable my

/-- `Filtered::on_record`: forwards to the inner layer exactly when
`cx.if_enabled_for(span, my)` is `Some`. The Boolean is whether the inner
layer's hook runs. -/
def Filtered.on_record (cx : Context) (span : Nat) (my : FilterId) : Bool :=
  (cx.if_enabled_for span my).isSome

/-- `Filtered::on_enter`. -/
def Filtered.on_enter (cx : Context) (span : Nat) (my : FilterId) : Bool :=
  (cx.if_enabled_for span my).isSome

/-- `Filtered::on_exit`. -/
def Filtered.on_exit (cx : Context) (span : Nat) (my : FilterId) : Bool :=
  (cx.if_enabled_for span my).isSome

/-- `Filtered::on_close`. -/
def Filtered.on_close (cx : Context) (span : Nat) (my : FilterId) : Bool :=
  (cx.if_enabled_for span my).isSome

/-- `Filtered::on_id_change` (checks the old span id). -/
def Filtered.on_id_change (cx : Context) (old : Nat) (my : FilterId) : Bool :=
  (cx.if_enabled_for old my).isSome

/-- `Filtered::on_follows_from`: forwards only when both the subject span and
the `follows` span are enabled for this filter. -/
def Filtered.on_follows_from (cx : Context) (span follows : Nat)
    (my : FilterId) : Bool :=
  cx.is_enabled_for span my && cx.is_enabled_for follows my

/-- The three PLF bookkeeping flags a `Layered` records at construction
(`layered.rs`). -/
structure LayeredFlags where
  inner_is_registry : Bool
  has_layer_filter : Bool
  inner_has_layer_filter : Bool
deriving DecidableEq, Repr

/-- `Layered::pick_interest`. In the source `inner` is a lazy `FnOnce`
closure; the Boolean in the result records whether the code forces it (i.e.
whether `inner.register_callsite` runs). -/
def Layered.pick_interest (s : LayeredFlags) (outer inner : Interest) :
    Interest × Bool :=
  if s.has_layer_filter then (inner, true)
  else if outer.is_never then (outer, false)
  else if outer.is_sometimes then (outer, true)
  else if inner.is_never && !outer.is_never && s.inner_has_layer_filter then
    (Interest.sometimes, true)
  else (inner, true)

/-- `Layered::pick_level_hint`. The `some o, some i` arm with fallthrough to
`none` is Rust's `Some(max(outer_hint?, inner_hint?))`. -/
def Layered.pick_level_hint (s : LayeredFlags)
    (outer_hint inner_hint : Option LevelFilter) : Option LevelFilter :=
  if s.inner_is_registry then outer_hint
  else if s.has_layer_filter && s.inner_has_layer_filter then
    match outer_hint, inner_hint with
    | some o, some i => some (LevelFilter.max o i)
    | _, _ => none
  else if s.has_layer_filter && inner_hint.isNone then none
  else if s.inner_has_layer_filter && outer_hint.isNone then none
  else optMax outer_hint inner_hint

/-- Trees of layers, as relevant to the `MagicPlfDowncastMarker` downcast:
a plain (non-PLF) leaf layer, a `Filtered` wrapper around an inner layer, or
a `Layered` of an outer and an inner branch. -/
inductive LayerTree where
  | plain : LayerTree
  | filtered : LayerTree → LayerTree
  | layered : LayerTree → LayerTree → LayerTree
deriving DecidableEq, Repr

/-- `downcast_raw(TypeId::of::<MagicPlfDowncastMarker>())` as each node
computes it: a plain layer returns null (`none`); `Filtered::downcast_raw`
returns a non-null pointer to its marker field without consulting its inner
layer; `Layered::downcast_raw` returns
`self.layer.downcast_raw(id).and(self.inner.downcast_raw(id))`. The pointer
payload is modelled as `Unit`. -/
def LayerTree.downcastPlf : LayerTree → Option Unit
  | .plain => none
  | .filtered _ => some ()
  | .layered o i =>
      match o.downcastPlf with
      | none => none
      | some _ => i.downcastPlf

/-- Every leaf of the tree is a `Filtered` (PLF) leaf. -/
def LayerTree.allLeavesPlf : LayerTree → Bool
  | .plain => false
  | .filtered _ => true
  | .layered o i => o.allLeavesPlf && i.allLeavesPlf

/-- The tree has at least one non-PLF (plain) leaf. -/
def LayerTree.hasNonPlfLeaf : LayerTree → Bool
  | .plain => true
  | .filtered _ => false
  | .layered o i => o.hasNonPlfLeaf || i.hasNonPlfLeaf

/-! ## Shared bit-level lemmas -/

/-- `x &&& (1 <<< i) = 0` says exactly that bit `i` of `x` is clear. -/
lemma land_shift_eq_zero_iff (x i : Nat) :
    (x &&& (1 <<< i) = 0) ↔ x.testBit i = false := by
  rw [Nat.shiftLeft_eq, one_mul, Nat.and_two_pow]
  cases h : x.testBit i
  · simp [h]
  · simp [h]

/-- Clearing bit `i` with the 64-bit complement mask indeed clears it. -/
lemma testBit_land_mask (x i : Nat) (h : i < 64) :
    (x &&& (u64Max ^^^ (1 <<< i))).testBit i = false := by
  rw [Nat.testBit_and, Nat.testBit_xor, Nat.shiftLeft_eq, one_mul, u64Max,
    Nat.testBit_two_pow_sub_one, Nat.testBit_two_pow_self]
  simp [h]

/-- Setting bit `i` with `|||` indeed sets it. -/
lemma testBit_lor_shift (x i : Nat) :
    (x ||| (1 <<< i)).testBit i = true := by
  rw [Nat.testBit_or, Nat.shiftLeft_eq, one_mul, Nat.testBit_two_pow_self]
  simp

/-- For an in-range id, `FilterMap.is_enabled` reads bit `f.val`. -/
lemma FilterMap.is_enabled_eq_not_testBit (m : FilterMap) (f : FilterId)
    (h : f.val < 64) : m.is_enabled f = !m.bits.testBit f.val := by
  rw [FilterMap.is_enabled, if_neg (by omega)]
  cases hb : m.bits.testBit f.val
  · simp [beq_iff_eq, (land_shift_eq_zero_iff m.bits f.val).mpr hb]
  · simp only [Bool.not_true, beq_eq_false_iff_ne, ne_eq]
    intro hz
    rw [(land_shift_eq_zero_iff m.bits f.val).mp hz] at hb
    exact Bool.false_ne_true hb

/-- `set f true` leaves bit `f` clear (in range). -/
lemma FilterMap.is_enabled_set_true (m : FilterMap) (f : FilterId)
    (h : f.val < 64) : (m.set f true).is_enabled f = true := by
  rw [FilterMap.set, if_neg (by omega), if_pos rfl,
    FilterMap.is_enabled_eq_not_testBit _ f h]
  simp [testBit_land_mask m.bits f.val h]

/-- `set f false` leaves bit `f` set (in range). -/
lemma FilterMap.is_enabled_set_false (m : FilterMap) (f : FilterId)
    (h : f.val < 64) : (m.set f false).is_enabled f = false := by
  rw [FilterMap.set, if_neg (by omega), if_neg (by simp),
    FilterMap.is_enabled_eq_not_testBit _ f h]
  simp [testBit_lor_shift m.bits f.val]

/-- `set` is the identity for out-of-range ids. -/
lemma FilterMap.set_out_of_range (m : FilterMap) (f : FilterId) (v : Bool)
    (h : 64 ≤ f.val) : m.set f v = m := by
  rw [FilterMap.set, if_pos h]

/-! ## Claim theorems -/

/-- Claim C9: `FilterMap`'s bit semantics. For every map value `m`, id `f`
and Boolean `v`: `is_enabled f` equals `bits &&& (1 <<< f) == 0` for
`f < 64` and is `false` for `f ≥ 64`; `any_enabled` is true iff
`bits ≠ u64::MAX`; `set f v` twice with the same `v` equals applying it once;
`set f true` after `set f false` restores the bit to clear; and `set` is a
no-op for every id `≥ 64`, including the unregistered sentinel 255. -/
theorem filterMap_bit_semantics (m : FilterMap) (f : FilterId) (v : Bool) :
    (f.val < 64 → m.is_enabled f = (m.bits &&& (1 <<< f.val) == 0))
    ∧ (64 ≤ f.val → m.is_enabled f = false)
    ∧ (m.any_enabled = true ↔ m.bits ≠ u64Max)
    ∧ ((m.set f v).set f v = m.set f v)
    ∧ (f.val < 64 → ((m.set f false).set f true).is_enabled f = true)
    ∧ (64 ≤ f.val → m.set f v = m) := by
  refine ⟨?_, ?_, ?_, ?_, ?_, ?_⟩
  · intro h
    rw [FilterMap.is_enabled, if_neg (by omega)]
  · intro h
    rw [FilterMap.is_enabled, if_pos h]
  · simp [FilterMap.any_enabled]
  · by_cases h : 64 ≤ f.val
    · rw [FilterMap.set_out_of_range _ _ _ h, FilterMap.set_out_of_range _ _ _ h]
    · cases v
      · simp [FilterMap.set, h, Nat.or_assoc, Nat.or_self]
      · simp [FilterMap.set, h, Nat.and_assoc, Nat.and_self]
  · intro h
    exact FilterMap.is_enabled_set_true _ f h
  · exact FilterMap.set_out_of_range m f v

/-- Witness for C9 at concrete inputs, covering both the in-range and the
out-of-range (sentinel 255) hypotheses. -/
theorem filterMap_bit_semantics_wit :
    (FilterMap.mk 5).is_enabled ⟨3⟩ = ((5 &&& (1 <<< 3)) == 0)
    ∧ (FilterMap.mk 5).is_enabled ⟨255⟩ = false
    ∧ (((FilterMap.mk 5).set ⟨3⟩ false).set ⟨3⟩ true).is_enabled ⟨3⟩ = true
    ∧ (FilterMap.mk 5).set ⟨255⟩ true = FilterMap.mk 5 :=
  ⟨(filterMap_bit_semantics ⟨5⟩ ⟨3⟩ true).1 (by decide),
   (filterMap_bit_semantics ⟨5⟩ ⟨255⟩ true).2.1 (by decide),
   (filterMap_bit_semantics ⟨5⟩ ⟨3⟩ true).2.2.2.2.1 (by decide),
   (filterMap_bit_semantics ⟨5⟩ ⟨255⟩ true).2.2.2.2.2 (by decide)⟩

/-- Claim C4: `FilterState::did_enable f k` invokes the continuation exactly
when bit `f` of the thread-local FilterMap is clear; when the bit is set it
does not invoke the continuation and clears the bit instead. In both cases,
after `did_enable` returns, bit `f` of the map is clear. `Filtered::new_span`
and `Filtered::on_event` forward to the inner layer through exactly this
gate. -/
theorem didEnable_gate (st : FilterState) (my : FilterId)
    (h : my.val < 64) :
    ((st.did_enable my).2 = st.enabled.is_enabled my)
    ∧ (st.enabled.is_enabled my = !st.enabled.bits.testBit my.val)
    ∧ (st.enabled.is_enabled my = true → (st.did_enable my).1 = st)
    ∧ (st.enabled.is_enabled my = false →
        (st.did_enable my).1.enabled = st.enabled.set my true)
    ∧ ((st.did_enable my).1.enabled.is_enabled my = true)
    ∧ Filtered.new_span st my = st.did_enable my
    ∧ Filtered.on_event st my = st.did_enable my := by
  refine ⟨?_, FilterMap.is_enabled_eq_not_testBit _ _ h, ?_, ?_, ?_, rfl, rfl⟩
  · rw [FilterState.did_enable]
    cases he : st.enabled.is_enabled my <;> simp [he]
  · intro he
    rw [FilterState.did_enable]
    simp [he]
  · intro he
    rw [FilterState.did_enable]
    simp [he]
  · rw [FilterState.did_enable]
    cases he : st.enabled.is_enabled my
    · simpa using FilterMap.is_enabled_set_true st.enabled my h
    · simp [he]

/-- Witness for C4: a state where bit 2 is set (disabled). `did_enable` skips
the continuation and clears the bit. -/
theorem didEnable_gate_wit :
    ((FilterState.mk ⟨4⟩ none).did_enable ⟨2⟩).2
      = (FilterMap.mk 4).is_enabled ⟨2⟩
    ∧ ((FilterState.mk ⟨4⟩ none).did_enable ⟨2⟩).1.enabled.is_enabled ⟨2⟩
      = true :=
  ⟨(didEnable_gate ⟨⟨4⟩, none⟩ ⟨2⟩ (by decide)).1,
   (didEnable_gate ⟨⟨4⟩, none⟩ ⟨2⟩ (by decide)).2.2.2.2.1⟩

/-- `if_enabled_for` is `Some` exactly when `is_enabled_for` holds. -/
lemma Context.if_enabled_for_isSome (cx : Context) (span : Nat)
    (f : FilterId) :
    (cx.if_enabled_for span f).isSome = cx.is_enabled_for span f := by
  rw [Context.if_enabled_for]
  cases h : cx.is_enabled_for span f <;> simp [h]

/-- Claim C5: every span-referencing callback of a `Filtered` wrapper
(`on_record`, `on_enter`, `on_exit`, `on_close`, `on_id_change`) forwards to
the inner layer iff bit `my` of the span's stored FilterMap is clear (the
span is enabled for this filter); `on_follows_from` forwards iff BOTH the
subject span and the `follows` span are enabled for this filter, and is
suppressed when either endpoint is disabled. -/
theorem filtered_span_callbacks_gate (cx : Context) (span follows : Nat)
    (my : FilterId) :
    (Filtered.on_record cx span my = (cx.spanMap span).is_enabled my)
    ∧ (Filtered.on_enter cx span my = (cx.spanMap span).is_enabled my)
    ∧ (Filtered.on_exit cx span my = (cx.spanMap span).is_enabled my)
    ∧ (Filtered.on_close cx span my = (cx.spanMap span).is_enabled my)
    ∧ (Filtered.on_id_change cx span my = (cx.spanMap span).is_enabled my)
    ∧ (my.val < 64 →
        Filtered.on_record cx span my
          = !(cx.spanMap span).bits.testBit my.val)
    ∧ (Filtered.on_follows_from cx span follows my
        = ((cx.spanMap span).is_enabled my
            && (cx.spanMap follows).is_enabled my)) := by
  have hg := Context.if_enabled_for_isSome cx span my
  refine ⟨hg, hg, hg, hg, hg, ?_, rfl⟩
  intro h
  rw [Filtered.on_record, hg, Context.is_enabled_for,
    FilterMap.is_enabled_eq_not_testBit _ _ h]

/-- Witness for C5 at a concrete context whose stored map for span 1 has bit
0 set: `on_record` is suppressed. -/
theorem filtered_span_callbacks_gate_wit :
    Filtered.on_record ⟨fun _ => ⟨1⟩, none⟩ 1 ⟨0⟩
      = !(Nat.testBit 1 0) :=
  (filtered_span_callbacks_gate ⟨fun _ => ⟨1⟩, none⟩ 1 2 ⟨0⟩).2.2.2.2.2.1
    (by decide)

/-- Claim C6: `Filtered::register_callsite` adds the filter's callsite
interest into the thread-local state and returns `Interest::always`
unconditionally; `Filtered::enabled` writes the filter's Boolean verdict into
the thread-local FilterMap at bit `my` (via `FilterMap::set`) and returns
`true` unconditionally — neither callback short-circuits. -/
theorem filtered_no_short_circuit (st : FilterState) (i : Interest)
    (my : FilterId) (v : Bool) :
    ((Filtered.register_callsite st i).2 = Interest.always)
    ∧ ((Filtered.register_callsite st i).1 = st.add_interest i)
    ∧ ((Filtered.enabled st my v).2 = true)
    ∧ ((Filtered.enabled st my v).1.enabled = st.enabled.set my v)
    ∧ (my.val < 64 →
        (Filtered.enabled st my v).1.enabled.is_enabled my = v) := by
  refine ⟨rfl, rfl, rfl, rfl, ?_⟩
  intro h
  cases v
  · exact FilterMap.is_enabled_set_false st.enabled my h
  · exact FilterMap.is_enabled_set_true st.enabled my h

/-- Witness for C6: writing verdict `false` at bit 7 makes the map read
disabled there, and `enabled` still returns `true`. -/
theorem filtered_no_short_circuit_wit :
    (Filtered.enabled FilterState.new ⟨7⟩ false).1.enabled.is_enabled ⟨7⟩
      = false
    ∧ (Filtered.enabled FilterState.new ⟨7⟩ false).2 = true :=
  ⟨(filtered_no_short_circuit FilterState.new Interest.never ⟨7⟩ false).2.2.2.2
      (by decide),
   (filtered_no_short_circuit FilterState.new Interest.never ⟨7⟩ false).2.2.1⟩

/-- Claim C7: `FilterState::add_interest` combining rule — empty cell stores
the new interest; stored `always` with a non-`always` newcomer, or stored
`never` with a non-`never` newcomer, degrades to `sometimes`; an identical
newcomer, or a stored `sometimes`, leaves the state unchanged; hence adding
the same interest twice equals adding it once. -/
theorem addInterest_combining (st : FilterState) (n : Interest) :
    (st.interest = none → (st.add_interest n).interest = some n)
    ∧ (st.interest = some Interest.always → n ≠ Interest.always →
        (st.add_interest n).interest = some Interest.sometimes)
    ∧ (st.interest = some Interest.never → n ≠ Interest.never →
        (st.add_interest n).interest = some Interest.sometimes)
    ∧ (st.interest = some n → st.add_interest n = st)
    ∧ (st.interest = some Interest.sometimes → st.add_interest n = st)
    ∧ ((st.add_interest n).add_interest n = st.add_interest n) := by
  rcases st with ⟨en, i0⟩
  cases i0 with
  | none =>
      cases n <;>
        simp [FilterState.add_interest, Interest.is_always, Interest.is_never]
  | some c =>
      cases c <;> cases n <;>
        simp [FilterState.add_interest, Interest.is_always, Interest.is_never]

/-- Witness for C7: stored `always`, newcomer `never` degrades to
`sometimes`; a second identical add is a no-op. -/
theorem addInterest_combining_wit :
    ((FilterState.mk FilterMap.default (some Interest.always)).add_interest
        Interest.never).interest = some Interest.sometimes
    ∧ (((FilterState.mk FilterMap.default none).add_interest
          Interest.never).add_interest Interest.never)
        = (FilterState.mk FilterMap.default none).add_interest Interest.never :=
  ⟨(addInterest_combining ⟨FilterMap.default, some Interest.always⟩
      Interest.never).2.1 rfl (by decide),
   (addInterest_combining ⟨FilterMap.default, none⟩ Interest.never).2.2.2.2.2⟩

/-- Claim C10: `FilterState::event_enabled` returns `any_enabled()` of the
thread-local FilterMap when the thread-local is accessible, and `true`
(fail-open) when it cannot be accessed (modelled by `none`). -/
theorem eventEnabled_fail_open (st : FilterState) :
    (FilterState.event_enabled (some st) = st.enabled.any_enabled)
    ∧ (FilterState.event_enabled (some st) = true
        ↔ st.enabled.bits ≠ u64Max)
    ∧ (FilterState.event_enabled none = true) := by
  refine ⟨rfl, ?_, rfl⟩
  simp [FilterState.event_enabled, FilterMap.any_enabled]

/-- Claim C2: `Layered::pick_interest` — if `has_layer_filter`, the result is
the inner interest and the outer is discarded (inner invoked); else if the
outer is `never`, the result is `never` and inner is not invoked; else inner
is always invoked: outer `sometimes` gives `sometimes`; inner `never` with
`inner_has_layer_filter` gives `sometimes`; otherwise the result is the inner
interest. The Boolean of `pick_interest` records whether inner is invoked. -/
theorem pickInterest_rule (s : LayeredFlags) (o i : Interest) :
    (s.has_layer_filter = true → Layered.pick_interest s o i = (i, true))
    ∧ (s.has_layer_filter = false → o = Interest.never →
        Layered.pick_interest s o i = (Interest.never, false))
    ∧ (s.has_layer_filter = false → o ≠ Interest.never →
        ((Layered.pick_interest s o i).2 = true)
        ∧ (o = Interest.sometimes →
            (Layered.pick_interest s o i).1 = Interest.sometimes)
        ∧ (o ≠ Interest.sometimes → i = Interest.never →
            s.inner_has_layer_filter = true →
            (Layered.pick_interest s o i).1 = Interest.sometimes)
        ∧ (o ≠ Interest.sometimes →
            ¬(i = Interest.never ∧ s.inner_has_layer_filter = true) →
            (Layered.pick_interest s o i).1 = i)) := by
  rcases s with ⟨r, hlf, ihlf⟩
  cases hlf <;> cases ihlf <;> cases o <;> cases i <;>
    simp [Layered.pick_interest, Interest.is_never, Interest.is_sometimes]

/-- Witness for C2: outer `always`, inner `never`, inner side PLF-gated:
result is `sometimes` and inner was invoked. -/
theorem pickInterest_rule_wit :
    (Layered.pick_interest ⟨false, false, true⟩ Interest.always
        Interest.never).1 = Interest.sometimes
    ∧ (Layered.pick_interest ⟨false, false, true⟩ Interest.always
        Interest.never).2 = true :=
  ⟨((pickInterest_rule ⟨false, false, true⟩ Interest.always
      Interest.never).2.2 rfl (by decide)).2.2.1 (by decide) rfl rfl,
   ((pickInterest_rule ⟨false, false, true⟩ Interest.always
      Interest.never).2.2 rfl (by decide)).1⟩

/-- Claim C1 as stated is false on the code: in the general case (inner not
the registry, no PLF on either side) the claim says a missing hint dominates
(`None` on either side makes the combined hint `None`), but with
`outer_hint = None` and `inner_hint = Some(ERROR)` the final
`max(outer_hint, inner_hint)` uses the derived `Ord` on `Option`, where
`None < Some(_)`, and returns `Some(ERROR)`, not `None`. -/
theorem pickLevelHint_general_counterexample :
    Layered.pick_level_hint ⟨false, false, false⟩ none
        (some LevelFilter.error) = some LevelFilter.error
    ∧ Layered.pick_level_hint ⟨false, false, false⟩ none
        (some LevelFilter.error) ≠ none := by
  decide

/-- Claim C1 (amended): in the general case — inner is not the registry, the
both-PLF branch does not apply (not both sides PLF), and neither
one-sided-PLF-with-missing-hint branch applies (not outer-PLF with a missing
inner hint, not inner-PLF with a missing outer hint) — the combined level
hint equals `max(outer_hint, inner_hint)` under the `Option` ordering in
which a missing hint is least, not dominant: both `None` gives `None`,
exactly one `Some` gives that hint, and two `Some`s give `Some` of the
most-verbose (maximum) level. -/
theorem pickLevelHint_general (s : LayeredFlags) (o i : Option LevelFilter)
    (hr : s.inner_is_registry = false)
    (hb : ¬(s.has_layer_filter = true ∧ s.inner_has_layer_filter = true))
    (ho : ¬(s.has_layer_filter = true ∧ i = none))
    (hi : ¬(s.inner_has_layer_filter = true ∧ o = none)) :
    (Layered.pick_level_hint s o i = optMax o i)
    ∧ (o = none → i = none → Layered.pick_level_hint s o i = none)
    ∧ (∀ a, o = some a → i = none → Layered.pick_level_hint s o i = some a)
    ∧ (∀ b, o = none → i = some b → Layered.pick_level_hint s o i = some b)
    ∧ (∀ a b, o = some a → i = some b →
        Layered.pick_level_hint s o i = some (LevelFilter.max a b)) := by
  rcases s with ⟨r, hlf, ihlf⟩
  change r = false at hr
  subst hr
  cases hlf <;> cases ihlf <;> cases o <;> cases i <;>
    simp_all [Layered.pick_level_hint, optMax]

/-- Witness for C1 (amended): a lone inner hint passes through with no PLF on
either side, and with only the outer side PLF-gated two present hints
combine to their maximum. -/
theorem pickLevelHint_general_wit :
    Layered.pick_level_hint ⟨false, false, false⟩ none
      (some LevelFilter.error) = some LevelFilter.error
    ∧ Layered.pick_level_hint ⟨false, true, false⟩ (some LevelFilter.info)
        (some LevelFilter.debug)
      = some (LevelFilter.max LevelFilter.info LevelFilter.debug) :=
  ⟨(pickLevelHint_general ⟨false, false, false⟩ none (some LevelFilter.error)
      rfl (by decide) (by decide) (by decide)).2.2.2.1 LevelFilter.error
      rfl rfl,
   (pickLevelHint_general ⟨false, true, false⟩ (some LevelFilter.info)
      (some LevelFilter.debug) rfl (by decide) (by decide)
      (by decide)).2.2.2.2 LevelFilter.info LevelFilter.debug rfl rfl⟩

/-- Claim C8: the special branches of `Layered::pick_level_hint`, taken in
source order — inner is the registry: the combined hint is the outer hint for
every pair; otherwise, both sides PLF: `Some(max)` when both hints present,
`None` when either is missing; only the outer side PLF with a missing inner
hint: `None`; only the inner side PLF with a missing outer hint: `None`. -/
theorem pickLevelHint_special (s : LayeredFlags) (o i : Option LevelFilter) :
    (s.inner_is_registry = true → Layered.pick_level_hint s o i = o)
    ∧ (s.inner_is_registry = false → s.has_layer_filter = true →
        s.inner_has_layer_filter = true →
        (∀ a b, o = some a → i = some b →
          Layered.pick_level_hint s o i = some (LevelFilter.max a b))
        ∧ ((o = none ∨ i = none) → Layered.pick_level_hint s o i = none))
    ∧ (s.inner_is_registry = false → s.has_layer_filter = true →
        s.inner_has_layer_filter = false → i = none →
        Layered.pick_level_hint s o i = none)
    ∧ (s.inner_is_registry = false → s.has_layer_filter = false →
        s.inner_has_layer_filter = true → o = none →
        Layered.pick_level_hint s o i = none) := by
  rcases s with ⟨r, hlf, ihlf⟩
  cases r <;> cases hlf <;> cases ihlf <;> cases o <;> cases i <;>
    simp [Layered.pick_level_hint, optMax]

/-- Witness for C8, one instance per branch. -/
theorem pickLevelHint_special_wit :
    Layered.pick_level_hint ⟨true, false, false⟩ (some LevelFilter.info) none
      = some LevelFilter.info
    ∧ Layered.pick_level_hint ⟨false, true, true⟩ (some LevelFilter.info)
        (some LevelFilter.debug)
      = some (LevelFilter.max LevelFilter.info LevelFilter.debug)
    ∧ Layered.pick_level_hint ⟨false, true, true⟩ (some LevelFilter.info) none
      = none
    ∧ Layered.pick_level_hint ⟨false, true, false⟩ (some LevelFilter.info) none
      = none
    ∧ Layered.pick_level_hint ⟨false, false, true⟩ none (some LevelFilter.info)
      = none :=
  ⟨(pickLevelHint_special ⟨true, false, false⟩ _ _).1 rfl,
   ((pickLevelHint_special ⟨false, true, true⟩ _ _).2.1 rfl rfl rfl).1 _ _
     rfl rfl,
   ((pickLevelHint_special ⟨false, true, true⟩ _ _).2.1 rfl rfl rfl).2
     (Or.inr rfl),
   (pickLevelHint_special ⟨false, true, false⟩ _ _).2.2.1 rfl rfl rfl rfl,
   (pickLevelHint_special ⟨false, false, true⟩ _ _).2.2.2 rfl rfl rfl rfl⟩

/-- The PlfMarker downcast of a tree succeeds exactly when every leaf is a
`Filtered`. -/
lemma LayerTree.downcastPlf_isSome (t : LayerTree) :
    t.downcastPlf.isSome = t.allLeavesPlf := by
  induction t with
  | plain => rfl
  | filtered t ih => rfl
  | layered o i iho ihi =>
      simp only [LayerTree.downcastPlf, LayerTree.allLeavesPlf, ← iho, ← ihi]
      cases o.downcastPlf <;> simp

/-- Having a non-PLF leaf is the negation of all leaves being PLF. -/
lemma LayerTree.hasNonPlfLeaf_eq (t : LayerTree) :
    t.hasNonPlfLeaf = !t.allLeavesPlf := by
  induction t with
  | plain => rfl
  | filtered t ih => rfl
  | layered o i iho ihi =>
      simp [LayerTree.hasNonPlfLeaf, LayerTree.allLeavesPlf, iho, ihi]

/-- Claim C3: `Layered::downcast_raw` queried with the PlfMarker type-id is
non-null iff BOTH branches are; a `Filtered` wrapper always answers non-null;
hence a tree whose leaves all have a PLF downcasts non-null, and a tree with
at least one non-PLF leaf downcasts null. -/
theorem plfDowncast_tree (o i t : LayerTree) :
    ((LayerTree.layered o i).downcastPlf.isSome
        = (o.downcastPlf.isSome && i.downcastPlf.isSome))
    ∧ ((LayerTree.filtered t).downcastPlf.isSome = true)
    ∧ (t.downcastPlf.isSome = t.allLeavesPlf)
    ∧ (t.hasNonPlfLeaf = true → t.downcastPlf.isSome = false) := by
  refine ⟨?_, rfl, t.downcastPlf_isSome, ?_⟩
  · rw [LayerTree.downcastPlf_isSome, LayerTree.downcastPlf_isSome,
      LayerTree.downcastPlf_isSome]
    rfl
  · intro h
    rw [LayerTree.downcastPlf_isSome]
    rw [LayerTree.hasNonPlfLeaf_eq] at h
    cases hA : t.allLeavesPlf
    · rfl
    · rw [hA] at h
      exact absurd h (by decide)

/-- Witness for C3: a `Layered` with one `Filtered` branch and one plain
branch downcasts null. -/
theorem plfDowncast_tree_wit :
    (LayerTree.layered (LayerTree.filtered LayerTree.plain)
        LayerTree.plain).downcastPlf.isSome = false :=
  (plfDowncast_tree LayerTree.plain LayerTree.plain
    (LayerTree.layered (LayerTree.filtered LayerTree.plain)
      LayerTree.plain)).2.2.2 (by decide)

end Spec2Proof
